import Mathlib

/-!
# Verification of the `ano` SQL anonymizer

A shallow embedding of `src/main.rs` (the whole program) together with the
behavior of the third-party pieces it delegates to where that behavior decides
a property: the `sqlparser` MySQL single-quoted-literal tokenizer, the
`serde_json` value model (restricted to the non-floating-point fragment),
Rust's `escape_ascii` and `str::from_utf8`, and the draw structure of the
`fake` / `rand` generators.

Byte strings (Rust `String` / `&[u8]` / file contents) are modelled as
`List Nat`, one element per byte.
-/

/-- Bytes of an ASCII Lean string literal (used only on ASCII text, where
code points and UTF-8 bytes agree). -/
def strBytes (s : String) : List Nat :=
  s.toList.map Char.toNat

/-- Decimal ASCII digits of a natural number, as produced by Rust's
`Display` for unsigned integers. -/
def natBytes (n : Nat) : List Nat :=
  (Nat.toDigits 10 n).map Char.toNat

/-- Decimal ASCII rendering of an integer (minus sign then digits). -/
def intBytes (n : Int) : List Nat :=
  if n < 0 then 45 :: natBytes n.natAbs else natBytes n.natAbs

/-- Lowercase hexadecimal digit, as used by Rust's `escape_ascii` and by
`serde_json`'s `\u00XX` escapes. -/
def hexDigit (d : Nat) : Nat :=
  if d < 10 then 48 + d else 87 + d

/-!
## Random generator model

`main` calls `rand::thread_rng()` and threads the resulting handle through
every `anonymize` call.  `Faker.fake()` (used for the two boolean coin flips)
internally obtains a fresh `rand::thread_rng()` handle; on one thread all such
handles alias the single thread-local generator, so every draw — through
either handle — consumes the same sequential stream.  The model keeps one
generator state and tags each draw with the handle it came through.
-/

/-- Which handle a random draw came through: the `rng` parameter threaded
into `anonymize` (`fake_with_rng(rng)` / `rng.next_u32()`), or a fresh
`rand::thread_rng()` handle obtained inside `Faker.fake()`. -/
inductive Handle where
  | param
  | fresh
deriving DecidableEq, Repr

/-- The thread-local generator: a predetermined stream of draws, the index of
the next draw, and a log of the handles the draws so far came through. -/
structure Rng where
  stream : Nat → Nat
  pos : Nat
  log : List Handle

/-- One draw from the thread-local generator through handle `h`. -/
def Rng.draw (h : Handle) (r : Rng) : Nat × Rng :=
  (r.stream r.pos, { r with pos := r.pos + 1, log := r.log ++ [h] })

/-- Model of a `fake` crate string generator (`StreetName()`, `SafeEmail()`,
`FirstName()`, ... with `.fake_with_rng(rng)`): it draws from the supplied
generator handle and yields a string determined by the draw.  The generator's
internal sampling is abstracted into a single draw whose value determines the
output. -/
def fakerString (tag : List Nat) (r : Rng) : List Nat × Rng :=
  let (n, r') := Rng.draw Handle.param r
  (tag ++ natBytes n, r')

/-- `Faker.fake::<bool>()`: a coin flip drawn through a fresh
`rand::thread_rng()` handle (aliasing the same generator). -/
def fakeBool (r : Rng) : Bool × Rng :=
  let (n, r') := Rng.draw Handle.fresh r
  (n % 2 = 0, r')

/-- `rng.next_u32()` on the parameter handle. -/
def nextU32 (r : Rng) : Nat × Rng :=
  let (n, r') := Rng.draw Handle.param r
  (n % 2 ^ 32, r')

/-!
## Literal-string codec (`MySqlString`)

Encoding (`impl fmt::Display for MySqlString`) writes
`'{escape_ascii(bytes)}'`: Rust's `escape_ascii` per byte.

Decoding (`impl FromStr for MySqlString`) runs
`sqlparser::Parser::new(&MySqlDialect).try_with_sql(s)?.parse_literal_string()`.
The model covers the quoted-literal inputs this program feeds it: optional
leading whitespace, then a single- or double-quoted literal with MySQL
backslash escapes and doubled-quote escapes, followed by whitespace only.
(The real parser additionally accepts bare words and tolerates trailing
tokens; neither arises here, since every decoded text is a quoted SQL string
literal.)
-/

/-- Rust `u8::escape_ascii` for one byte: `\t`, `\r`, `\n`, `\\`, `\'`, `\"`
are named escapes, printable ASCII is passed through, and every other byte
becomes `\xNN` with lowercase hex digits. -/
def escapeAsciiByte (b : Nat) : List Nat :=
  if b = 9 then [92, 116]
  else if b = 13 then [92, 114]
  else if b = 10 then [92, 110]
  else if b = 92 then [92, 92]
  else if b = 39 then [92, 39]
  else if b = 34 then [92, 34]
  else if 32 ≤ b ∧ b ≤ 126 then [b]
  else [92, 120, hexDigit (b / 16), hexDigit (b % 16)]

/-- `MySqlString`'s `Display`: a single-quoted literal with every byte passed
through `escape_ascii`. -/
def mysqlEncode (s : List Nat) : List Nat :=
  39 :: s.flatMap escapeAsciiByte ++ [39]

/-- MySQL backslash escapes as interpreted by sqlparser's tokenizer:
`\0 \b \n \r \t \Z` map to their control bytes and every other escaped byte
(`\' \" \\ \% \_` included) maps to itself.  There is no `\xNN` escape. -/
def mysqlUnescape (c : Nat) : Nat :=
  if c = 48 then 0
  else if c = 98 then 8
  else if c = 110 then 10
  else if c = 114 then 13
  else if c = 116 then 9
  else if c = 90 then 26
  else c

/-- Leading-whitespace skip shared by the sqlparser tokenizer and
`serde_json` (both treat space, tab, LF and CR as whitespace). -/
def skipWs : List Nat → List Nat
  | [] => []
  | b :: rest =>
    if b = 32 ∨ b = 9 ∨ b = 10 ∨ b = 13 then skipWs rest else b :: rest

/-- Scan the body of a quoted string (quote byte `q`) after its opening
quote: a doubled quote is a literal quote, a backslash escapes the next byte
via `mysqlUnescape`, an unpaired closing quote ends the literal, and reaching
the end of input without a closing quote is a tokenizer error (`none`).
Returns the decoded content and the remaining input. -/
def scanQuoted (q : Nat) : List Nat → Option (List Nat × List Nat)
  | [] => none
  | b :: rest =>
    if b = q then
      match rest with
      | [] => some ([], [])
      | b2 :: rest2 =>
        if b2 = q then
          (scanQuoted q rest2).map (fun p => (q :: p.1, p.2))
        else
          some ([], rest)
    else if b = 92 then
      match rest with
      | [] => none
      | c :: rest2 =>
        (scanQuoted q rest2).map (fun p => (mysqlUnescape c :: p.1, p.2))
    else
      (scanQuoted q rest).map (fun p => (b :: p.1, p.2))

/-- `MySqlString::from_str` on the quoted-literal fragment: skip leading
whitespace, scan a single- or double-quoted MySQL literal, and require that
nothing but whitespace remains. -/
def mysqlFromStr (s : List Nat) : Option (List Nat) :=
  match skipWs s with
  | [] => none
  | b :: rest =>
    if b = 39 ∨ b = 34 then
      (scanQuoted b rest).bind
        (fun p => if (skipWs p.2).isEmpty then some p.1 else none)
    else none

/-- A byte the encode/decode pair treats losslessly: printable ASCII or one
of the three control bytes whose named escapes the MySQL tokenizer inverts. -/
def mysqlSafe (b : Nat) : Prop :=
  b = 9 ∨ b = 10 ∨ b = 13 ∨ (32 ≤ b ∧ b ≤ 126)

instance (b : Nat) : Decidable (mysqlSafe b) := by
  unfold mysqlSafe; infer_instance

/-!
## `str::from_utf8` validity

The Order directive runs `str::from_utf8(&buf)?` on the raw span bytes before
anything else touches them.  `validUtf8` is the standard UTF-8 validation:
continuation-byte counts per leading byte, overlong encodings, surrogates and
code points above U+10FFFF rejected.
-/

/-- A UTF-8 continuation byte. -/
def utf8Cont (b : Nat) : Bool :=
  128 ≤ b ∧ b ≤ 191

/-- Rust `str::from_utf8` succeeds exactly on valid UTF-8. -/
def validUtf8 : List Nat → Bool
  | [] => true
  | b :: rest =>
    if b ≤ 127 then validUtf8 rest
    else if 194 ≤ b ∧ b ≤ 223 then
      match rest with
      | c1 :: r => utf8Cont c1 && validUtf8 r
      | [] => false
    else if b = 224 then
      match rest with
      | c1 :: c2 :: r => (160 ≤ c1 && c1 ≤ 191) && utf8Cont c2 && validUtf8 r
      | _ => false
    else if (225 ≤ b ∧ b ≤ 236) ∨ b = 238 ∨ b = 239 then
      match rest with
      | c1 :: c2 :: r => utf8Cont c1 && utf8Cont c2 && validUtf8 r
      | _ => false
    else if b = 237 then
      match rest with
      | c1 :: c2 :: r => (128 ≤ c1 && c1 ≤ 159) && utf8Cont c2 && validUtf8 r
      | _ => false
    else if b = 240 then
      match rest with
      | c1 :: c2 :: c3 :: r =>
        (144 ≤ c1 && c1 ≤ 191) && utf8Cont c2 && utf8Cont c3 && validUtf8 r
      | _ => false
    else if 241 ≤ b ∧ b ≤ 243 then
      match rest with
      | c1 :: c2 :: c3 :: r =>
        utf8Cont c1 && utf8Cont c2 && utf8Cont c3 && validUtf8 r
      | _ => false
    else if b = 244 then
      match rest with
      | c1 :: c2 :: c3 :: r =>
        (128 ≤ c1 && c1 ≤ 143) && utf8Cont c2 && utf8Cont c3 && validUtf8 r
      | _ => false
    else false

/-!
## `serde_json` value model

`serde_json::Value` with its default `BTreeMap` object representation:
objects are key-sorted association lists (byte-lexicographic key order,
duplicate keys resolved last-wins on insertion), serialization is the compact
form `to_string()` produces.  Numbers are modelled on the integer fragment
(`u64` / `i64`); floating-point literals and `\uXXXX` string escapes are
outside the model, so the model parser rejects inputs the real parser would
read as floats or with unicode escapes.
-/

/-- JSON values (integer-number fragment of `serde_json::Value`). -/
inductive JsonValue where
  | null
  | bool (b : Bool)
  | num (n : Int)
  | str (s : List Nat)
  | arr (xs : List JsonValue)
  | obj (fields : List (List Nat × JsonValue))

/-- Byte-lexicographic strict order on keys (Rust `String` `Ord`, the
`BTreeMap` key order). -/
def bytesLt : List Nat → List Nat → Bool
  | [], [] => false
  | [], _ :: _ => true
  | _ :: _, [] => false
  | a :: as_, b :: bs =>
    if a < b then true else if a = b then bytesLt as_ bs else false

/-- `BTreeMap::insert` on a key-sorted association list: keeps the list
sorted and replaces the value of an existing key. -/
def objInsert (k : List Nat) (v : JsonValue) :
    List (List Nat × JsonValue) → List (List Nat × JsonValue)
  | [] => [(k, v)]
  | (k2, v2) :: rest =>
    if bytesLt k k2 then (k, v) :: (k2, v2) :: rest
    else if k = k2 then (k, v) :: rest
    else (k2, v2) :: objInsert k v rest

/-- Build an object by inserting the pairs in order (the `json!` macro /
`serde_json::Map::insert`). -/
def jsonObjOfList (l : List (List Nat × JsonValue)) : JsonValue :=
  JsonValue.obj (l.foldl (fun acc kv => objInsert kv.1 kv.2 acc) [])

/-- The keys of an object value, in stored (sorted) order. -/
def objKeys : JsonValue → List (List Nat)
  | JsonValue.obj fields => fields.map Prod.fst
  | _ => []

/-- Field lookup in an object's association list. -/
def objLookup (fields : List (List Nat × JsonValue)) (k : List Nat) :
    Option JsonValue :=
  (fields.find? (fun kv => kv.1 = k)).map Prod.snd

/-- Whether an object's association list has key `k`
(`map.get_mut(k).is_some()`). -/
def hasKey (fields : List (List Nat × JsonValue)) (k : List Nat) : Bool :=
  fields.any (fun kv => kv.1 = k)

/-- `*map.get_mut(k).unwrap() = v`: replace the value stored at key `k`,
leaving every other field untouched. -/
def objReplace (fields : List (List Nat × JsonValue)) (k : List Nat)
    (v : JsonValue) : List (List Nat × JsonValue) :=
  fields.map (fun kv => if kv.1 = k then (kv.1, v) else kv)

/-- `serde_json`'s string escaping: `\" \\ \b \f \n \r \t`, `\u00XX` with
lowercase hex for other control bytes, everything else raw. -/
def jsonEscapeByte (b : Nat) : List Nat :=
  if b = 34 then [92, 34]
  else if b = 92 then [92, 92]
  else if b = 8 then [92, 98]
  else if b = 12 then [92, 102]
  else if b = 10 then [92, 110]
  else if b = 13 then [92, 114]
  else if b = 9 then [92, 116]
  else if b < 32 then [92, 117, 48, 48, hexDigit (b / 16), hexDigit (b % 16)]
  else [b]

mutual

/-- Compact serialization, as `serde_json::Value::to_string()` renders it
(no spaces, object fields in `BTreeMap` order). -/
def jsonSerialize : JsonValue → List Nat
  | JsonValue.null => strBytes ("null")
  | JsonValue.bool true => strBytes ("true")
  | JsonValue.bool false => strBytes ("false")
  | JsonValue.num n => intBytes n
  | JsonValue.str s => 34 :: s.flatMap jsonEscapeByte ++ [34]
  | JsonValue.arr xs => 91 :: serializeItems xs ++ [93]
  | JsonValue.obj fields => 123 :: serializeFields fields ++ [125]

/-- Comma-separated serialization of array elements. -/
def serializeItems : List JsonValue → List Nat
  | [] => []
  | [x] => jsonSerialize x
  | x :: y :: rest => jsonSerialize x ++ 44 :: serializeItems (y :: rest)

/-- Comma-separated serialization of `"key":value` fields. -/
def serializeFields : List (List Nat × JsonValue) → List Nat
  | [] => []
  | [(k, v)] => 34 :: k.flatMap jsonEscapeByte ++ [34] ++ 58 :: jsonSerialize v
  | (k, v) :: kv :: rest =>
    34 :: k.flatMap jsonEscapeByte ++ [34] ++ 58 :: jsonSerialize v
      ++ 44 :: serializeFields (kv :: rest)

end

/-- Longest digit prefix and the rest. -/
def spanDigits (l : List Nat) : List Nat × List Nat :=
  l.span (fun b => Nat.ble 48 b && Nat.ble b 57)

/-- Numeric value of an ASCII digit string. -/
def digitsVal (ds : List Nat) : Nat :=
  ds.foldl (fun a d => a * 10 + (d - 48)) 0

/-- Parse the digit run of a JSON number: at least one digit, no redundant
leading zero, and not followed by `.`, `e` or `E` (a fractional or exponent
form is a float, outside the integer model). -/
def parseNumDigits (input : List Nat) : Option (Nat × List Nat) :=
  let p := spanDigits input
  if p.1.isEmpty then none
  else if p.1.length > 1 ∧ p.1.head? = some 48 then none
  else
    match p.2 with
    | 46 :: _ => none
    | 101 :: _ => none
    | 69 :: _ => none
    | _ => some (digitsVal p.1, p.2)

/-- Parse a JSON number in `serde_json`'s integer range: a non-negative
integer below `2^64` (`u64`) or a negative integer down to `-2^63` (`i64`);
`-0` and out-of-range integers are floats in `serde_json` and outside the
model. -/
def parseNumber (input : List Nat) : Option (JsonValue × List Nat) :=
  match input with
  | 45 :: rest =>
    (parseNumDigits rest).bind
      (fun p =>
        if p.1 ≠ 0 ∧ p.1 ≤ 2 ^ 63 then
          some (JsonValue.num (-(p.1 : Int)), p.2)
        else none)
  | _ =>
    (parseNumDigits input).bind
      (fun p =>
        if p.1 < 2 ^ 64 then some (JsonValue.num (p.1 : Int), p.2) else none)

/-- Parse the body of a JSON string after its opening quote.  Handles the
simple escapes `\" \\ \/ \b \f \n \r \t`; raw control bytes and invalid
escapes are errors, and `\uXXXX` escapes are outside the model. -/
def parseJsonStr : List Nat → Option (List Nat × List Nat)
  | [] => none
  | 34 :: rest => some ([], rest)
  | 92 :: rest =>
    match rest with
    | [] => none
    | c :: rest2 =>
      let e :=
        if c = 34 then some 34
        else if c = 92 then some 92
        else if c = 47 then some 47
        else if c = 98 then some 8
        else if c = 102 then some 12
        else if c = 110 then some 10
        else if c = 114 then some 13
        else if c = 116 then some 9
        else none
      e.bind (fun d => (parseJsonStr rest2).map (fun p => (d :: p.1, p.2)))
  | b :: rest =>
    if b < 32 then none
    else (parseJsonStr rest).map (fun p => (b :: p.1, p.2))

mutual

/-- Recursive-descent JSON value parser modelling `serde_json::from_str`'s
grammar on the integer fragment, fueled by nesting depth. -/
def parseValue : Nat → List Nat → Option (JsonValue × List Nat)
  | 0, _ => none
  | Nat.succ fuel, input =>
    match skipWs input with
    | [] => none
    | b :: rest =>
      if b = 110 then
        match rest with
        | 117 :: 108 :: 108 :: r => some (JsonValue.null, r)
        | _ => none
      else if b = 116 then
        match rest with
        | 114 :: 117 :: 101 :: r => some (JsonValue.bool true, r)
        | _ => none
      else if b = 102 then
        match rest with
        | 97 :: 108 :: 115 :: 101 :: r => some (JsonValue.bool false, r)
        | _ => none
      else if b = 34 then
        (parseJsonStr rest).map (fun p => (JsonValue.str p.1, p.2))
      else if b = 91 then
        match skipWs rest with
        | 93 :: r => some (JsonValue.arr [], r)
        | r2 => parseArrItems fuel [] r2
      else if b = 123 then
        match skipWs rest with
        | 125 :: r => some (JsonValue.obj [], r)
        | r2 => parseObjItems fuel [] r2
      else parseNumber (b :: rest)

/-- Array elements after `[` (at least one element pending). -/
def parseArrItems : Nat → List JsonValue → List Nat →
    Option (JsonValue × List Nat)
  | 0, _, _ => none
  | Nat.succ fuel, acc, input =>
    (parseValue fuel input).bind
      (fun p =>
        match skipWs p.2 with
        | 44 :: r2 => parseArrItems fuel (acc ++ [p.1]) r2
        | 93 :: r2 => some (JsonValue.arr (acc ++ [p.1]), r2)
        | _ => none)

/-- Object fields after `{` (at least one field pending); duplicate keys
resolve last-wins through `objInsert`. -/
def parseObjItems : Nat → List (List Nat × JsonValue) → List Nat →
    Option (JsonValue × List Nat)
  | 0, _, _ => none
  | Nat.succ fuel, acc, input =>
    match skipWs input with
    | 34 :: rest =>
      (parseJsonStr rest).bind
        (fun kp =>
          match skipWs kp.2 with
          | 58 :: r2 =>
            (parseValue fuel r2).bind
              (fun vp =>
                match skipWs vp.2 with
                | 44 :: r4 => parseObjItems fuel (objInsert kp.1 vp.1 acc) r4
                | 125 :: r4 =>
                  some (JsonValue.obj (objInsert kp.1 vp.1 acc), r4)
                | _ => none)
          | _ => none)
    | _ => none

end

/-- `serde_json::from_str::<Value>` on the integer fragment: one value,
then nothing but whitespace. -/
def jsonParse (s : List Nat) : Option JsonValue :=
  (parseValue (s.length + 1) s).bind
    (fun p => if (skipWs p.2).isEmpty then some p.1 else none)

/-!
## Directive registry
-/

/-- The closed set of anonymization directives (`enum Directive`). -/
inductive Directive where
  | Address
  | BiologicalSex
  | Bic
  | Date
  | Email
  | FirstName
  | Iban
  | LastName
  | Name
  | Order
  | Password
  | PhoneNumber
  | U32
  | VatNo
deriving DecidableEq, Repr

/-- `Directive::from_str`: exact, case-sensitive match against the fourteen
snake_case labels; anything else is `DirectiveError` (`none`). -/
def Directive.fromStr (s : String) : Option Directive :=
  if s = "address" then some Directive.Address
  else if s = "biological_sex" then some Directive.BiologicalSex
  else if s = "bic" then some Directive.Bic
  else if s = "date" then some Directive.Date
  else if s = "email" then some Directive.Email
  else if s = "first_name" then some Directive.FirstName
  else if s = "iban" then some Directive.Iban
  else if s = "last_name" then some Directive.LastName
  else if s = "name" then some Directive.Name
  else if s = "order" then some Directive.Order
  else if s = "password" then some Directive.Password
  else if s = "phone_number" then some Directive.PhoneNumber
  else if s = "u32" then some Directive.U32
  else if s = "vat_no" then some Directive.VatNo
  else none

/-- The labels `Directive::from_str` accepts, in source order. -/
def directiveLabels : List String :=
  ["address", "biological_sex", "bic", "date", "email", "first_name",
   "iban", "last_name", "name", "order", "password", "phone_number",
   "u32", "vat_no"]

/-- The CamelCase variant names from the data model, which are not valid
capture labels. -/
def camelLabels : List String :=
  ["Address", "BiologicalSex", "Bic", "Date", "Email", "FirstName",
   "Iban", "LastName", "Name", "Order", "Password", "PhoneNumber",
   "U32", "VatNo"]

/-!
## Directive handlers (`anonymize`)
-/

/-- A query capture as the driver sees it: the tree-sitter node's byte range
and the capture's label (the code resolves `capture.index` through
`query.capture_names()`; the model carries the name directly). -/
structure Capture where
  label : String
  startByte : Nat
  endByte : Nat

/-- Fatal errors `anonymize` can produce (each aborts the run with a nonzero
exit status via `?`): `read_exact` hitting end of file, `str::from_utf8`
failing, `MySqlString::from_str` failing, `serde_json::from_str` failing, the
top-level JSON value not being an object, and the `customerDetails` key being
absent. -/
inductive AnonErr where
  | readEof
  | invalidUtf8
  | sqlLiteral
  | jsonSyntax
  | notObject
  | missingCustomerDetails
deriving DecidableEq, Repr

/-- The shape of the fresh `customerDetails` replacement the Order directive
builds with `json!`: the seven keys in `BTreeMap` order, gender rendered from
the coin flip, height and weight from `next_u32`. -/
def customerValue (fn ln em : List Nat) (g : Bool) (hh ww : Nat)
    (bd : List Nat) : JsonValue :=
  jsonObjOfList
    [(strBytes ("firstName"), JsonValue.str fn),
     (strBytes ("lastName"), JsonValue.str ln),
     (strBytes ("email"), JsonValue.str em),
     (strBytes ("gender"),
      JsonValue.str (if g then strBytes ("male") else strBytes ("female"))),
     (strBytes ("height"), JsonValue.num hh),
     (strBytes ("weight"), JsonValue.num ww),
     (strBytes ("birthDate"), JsonValue.str bd)]

/-- The draws of the Order directive feeding `customerValue`. -/
def orderCustomer (rng : Rng) : JsonValue × Rng :=
  let (firstName, r1) := fakerString (strBytes ("FirstName")) rng
  let (lastName, r2) := fakerString (strBytes ("LastName")) r1
  let (email, r3) := fakerString (strBytes ("SafeEmail")) r2
  let (coin, r4) := fakeBool r3
  let (height, r5) := nextU32 r4
  let (weight, r6) := nextU32 r5
  let (birthDate, r7) := fakerString (strBytes ("DateTime")) r6
  (customerValue firstName lastName email coin height weight birthDate, r7)

/-- The key `customerDetails`. -/
def cdKey : List Nat := strBytes ("customerDetails")

/-- `fn anonymize`: one directive handler invocation.  `input` is the file's
byte content and `p` the reader's stream position; the result is the bytes
written to the output, the reader's new position, and the generator state.
Every handler except Order seeks the reader to the node's end without reading
the span; Order reads exactly the span (`take(limit)` + `read_exact`),
decodes it, rewrites the JSON and re-encodes it. -/
def anonymize (d : Directive) (node : Capture) (input : List Nat) (p : Nat)
    (rng : Rng) : Except AnonErr (List Nat × Nat × Rng) :=
  match d with
  | Directive.Address =>
    let (streetName, r1) := fakerString (strBytes ("StreetName")) rng
    let (streetDetails, r2) := fakerString (strBytes ("SecondaryAddress")) r1
    let (zipCode, r3) := fakerString (strBytes ("ZipCode")) r2
    let (city, r4) := fakerString (strBytes ("CityName")) r3
    let (country, r5) := fakerString (strBytes ("CountryName")) r4
    let (state, r6) := fakerString (strBytes ("StateName")) r5
    let address := jsonObjOfList
      [(strBytes ("street_name"), JsonValue.str streetName),
       (strBytes ("street_details"), JsonValue.str streetDetails),
       (strBytes ("zip_code"), JsonValue.str zipCode),
       (strBytes ("city"), JsonValue.str city),
       (strBytes ("country"), JsonValue.str country),
       (strBytes ("state"), JsonValue.str state)]
    Except.ok (mysqlEncode (jsonSerialize address), node.endByte, r6)
  | Directive.BiologicalSex =>
    let (coin, r1) := fakeBool rng
    let out :=
      if coin then 39 :: strBytes ("Male") ++ [39]
      else 39 :: strBytes ("Female") ++ [39]
    Except.ok (out, node.endByte, r1)
  | Directive.Bic =>
    let (bic, r1) := fakerString (strBytes ("Bic")) rng
    Except.ok (mysqlEncode bic, node.endByte, r1)
  | Directive.Date =>
    let (date, r1) := fakerString (strBytes ("Date")) rng
    Except.ok (mysqlEncode date, node.endByte, r1)
  | Directive.Email =>
    let (email, r1) := fakerString (strBytes ("SafeEmail")) rng
    Except.ok (mysqlEncode email, node.endByte, r1)
  | Directive.FirstName =>
    let (firstName, r1) := fakerString (strBytes ("FirstName")) rng
    Except.ok (mysqlEncode firstName, node.endByte, r1)
  | Directive.Iban =>
    Except.ok (39 :: strBytes ("AT01234567890123456789") ++ [39],
      node.endByte, rng)
  | Directive.LastName =>
    let (lastName, r1) := fakerString (strBytes ("LastName")) rng
    Except.ok (mysqlEncode lastName, node.endByte, r1)
  | Directive.Name =>
    let (name, r1) := fakerString (strBytes ("Name")) rng
    Except.ok (mysqlEncode name, node.endByte, r1)
  | Directive.Order =>
    let limit := node.endByte - node.startByte
    let buf := (input.drop p).take limit
    if buf.length ≠ limit then Except.error AnonErr.readEof
    else if validUtf8 buf = false then Except.error AnonErr.invalidUtf8
    else
      match mysqlFromStr buf with
      | none => Except.error AnonErr.sqlLiteral
      | some content =>
        match jsonParse content with
        | none => Except.error AnonErr.jsonSyntax
        | some value =>
          match value with
          | JsonValue.obj fields =>
            if hasKey fields cdKey then
              let (customer, r') := orderCustomer rng
              Except.ok
                (mysqlEncode
                  (jsonSerialize
                    (JsonValue.obj (objReplace fields cdKey customer))),
                 p + limit, r')
            else Except.error AnonErr.missingCustomerDetails
          | _ => Except.error AnonErr.notObject
  | Directive.Password =>
    Except.ok
      (39 ::
        strBytes ("$2y$10$xOGO.s9/T06bIuCydNED7up5JWlXWp/kK7C8DC76kWyYrB5s9rnAu")
        ++ [39],
       node.endByte, rng)
  | Directive.PhoneNumber =>
    let (phoneNumber, r1) := fakerString (strBytes ("PhoneNumber")) rng
    Except.ok (mysqlEncode phoneNumber, node.endByte, r1)
  | Directive.U32 =>
    let (n, r1) := nextU32 rng
    Except.ok (natBytes n, node.endByte, r1)
  | Directive.VatNo =>
    Except.ok (39 :: strBytes ("AT01234567") ++ [39], node.endByte, rng)

/-!
## Rewrite driver (`main`'s match loop)
-/

/-- Fatal driver errors: an out-of-order capture (`bail!`) or an error
propagated out of `anonymize`. -/
inductive DriverErr where
  | outOfOrder
  | anon (e : AnonErr)
deriving DecidableEq, Repr

/-- `main`'s loop over the user query's captures.  For each capture whose
label parses as a directive: read the current position, copy
`start - pos` bytes verbatim if the position is before the span, fail
fatally if it is past the span start, then run the handler.  Unrecognized
labels are skipped entirely.  Returns the output produced so far, the final
reader position and the generator state. -/
def processCaptures (input : List Nat) :
    List Capture → Nat → List Nat → Rng →
    Except DriverErr (List Nat × Nat × Rng)
  | [], p, out, rng => Except.ok (out, p, rng)
  | c :: rest, p, out, rng =>
    match Directive.fromStr c.label with
    | none => processCaptures input rest p out rng
    | some d =>
      let copied :=
        if p < c.startByte then (input.drop p).take (c.startByte - p) else []
      if c.startByte < p then Except.error DriverErr.outOfOrder
      else
        match anonymize d c input (p + copied.length) rng with
        | Except.error e => Except.error (DriverErr.anon e)
        | Except.ok (seg, p2, rng2) =>
          processCaptures input rest p2 (out ++ copied ++ seg) rng2

/-- The whole run of `main` after query compilation: process every capture
in match order, then copy the remaining bytes verbatim
(`io::copy(&mut reader, &mut stdout)`).  Returns the bytes written to
stdout, or the fatal error that aborted the run (nonzero exit status). -/
def runMain (input : List Nat) (caps : List Capture) (rng : Rng) :
    Except DriverErr (List Nat) :=
  match processCaptures input caps 0 [] rng with
  | Except.error e => Except.error e
  | Except.ok (out, p, _) => Except.ok (out ++ input.drop p)

/-!
## Output partition (claim C4's vocabulary)

A successful run's output decomposes into an alternation of verbatim copies
and directive-produced replacements along a monotone chain of byte offsets.
-/

/-- A chain of replaced spans `(s, e, replacement)` whose offsets move
monotonically: each span starts at or after the previous position and ends at
or after it starts.  `SegChain p segs q` says the spans partition the cursor
movement from `p` to `q`. -/
inductive SegChain : Nat → List (Nat × Nat × List Nat) → Nat → Prop
  | nil (p : Nat) : SegChain p [] p
  | cons {p q s e : Nat} {rep : List Nat} {segs : List (Nat × Nat × List Nat)}
      (h1 : p ≤ s) (h2 : s ≤ e) (h3 : SegChain e segs q) :
      SegChain p ((s, e, rep) :: segs) q

/-- The input bytes from offset `a` (inclusive) to `b` (exclusive), clamped
to the input's length — the bytes a verbatim copy from position `a` up to
position `b` emits. -/
def byteSlice (input : List Nat) (a b : Nat) : List Nat :=
  (input.drop a).take (b - a)

/-- Render a chain of spans starting at cursor `p`: the verbatim bytes up to
each span's start, then its replacement, continuing from the span's end —
never revisiting an offset. -/
def renderSegs (input : List Nat) : Nat → List (Nat × Nat × List Nat) →
    List Nat
  | _, [] => []
  | p, (s, e, rep) :: segs =>
    byteSlice input p s ++ rep ++ renderSegs input e segs

/-- A concrete generator state for witnesses: the all-zero draw stream. -/
def rng0 : Rng := ⟨fun _ => 0, 0, []⟩

/-- The handle log after a concrete BiologicalSex invocation. -/
def c2bioLog : List Handle :=
  match anonymize Directive.BiologicalSex ⟨"biological_sex", 0, 1⟩ [120] 0
      rng0 with
  | Except.ok (_, _, r) => r.log
  | Except.error _ => []

/-- The result of a concrete Email invocation. -/
def c2emailRes : List Nat × Nat × Rng :=
  match anonymize Directive.Email ⟨"email", 0, 1⟩ [120] 0 rng0 with
  | Except.ok t => t
  | Except.error _ => ([], 0, rng0)

/-- A literal-encoded span whose JSON object holds `customerDetails`, for a
concrete successful Order invocation. -/
def c2orderSpan : List Nat :=
  mysqlEncode (jsonSerialize (JsonValue.obj [(cdKey, JsonValue.null)]))

/-- The result of a concrete Order invocation on that span. -/
def c2orderRes : List Nat × Nat × Rng :=
  match anonymize Directive.Order ⟨"order", 0, c2orderSpan.length⟩
      c2orderSpan 0 rng0 with
  | Except.ok t => t
  | Except.error _ => ([], 0, rng0)

/-- The result of a concrete BiologicalSex invocation. -/
def c2bioRes : List Nat × Nat × Rng :=
  match anonymize Directive.BiologicalSex ⟨"biological_sex", 0, 1⟩ [120] 0
      rng0 with
  | Except.ok t => t
  | Except.error _ => ([], 0, rng0)

/-- Field lookup on an object value. -/
def objLookupV : JsonValue → List Nat → Option JsonValue
  | JsonValue.obj fields, k => objLookup fields k
  | _, _ => none

/-- Whether a JSON value is an object (`Value::as_object_mut().is_some()`). -/
def isObjValue : JsonValue → Bool
  | JsonValue.obj _ => true
  | _ => false

/-- The exact key set of the generated customer object, in serialization
(`BTreeMap`) order. -/
def customerKeys : List (List Nat) :=
  [strBytes ("birthDate"), strBytes ("email"), strBytes ("firstName"),
   strBytes ("gender"), strBytes ("height"), strBytes ("lastName"),
   strBytes ("weight")]

/-- Fields of a span whose `customerDetails` is the number 5 — present but
not an object. -/
def c3cdNumFields : List (List Nat × JsonValue) := [(cdKey, JsonValue.num 5)]

/-- That span, literal-encoded. -/
def c3cdNumSpan : List Nat :=
  mysqlEncode (jsonSerialize (JsonValue.obj c3cdNumFields))

/-- Whether the Order handler accepts the span with a non-object
`customerDetails`. -/
def c3cdNumAccepted : Bool :=
  match anonymize Directive.Order ⟨"order", 0, c3cdNumSpan.length⟩
      c3cdNumSpan 0 rng0 with
  | Except.ok _ => true
  | Except.error _ => false

/-- Fields of the witness span: `customerDetails` an object, plus an
unrelated field `other`. -/
def c3wFields : List (List Nat × JsonValue) :=
  [(cdKey, JsonValue.obj []), (strBytes ("other"), JsonValue.num 1)]

/-- The witness span, literal-encoded. -/
def c3wSpan : List Nat := mysqlEncode (jsonSerialize (JsonValue.obj c3wFields))

/-- The witness input `INSERT ('x');`. -/
def c4input : List Nat := strBytes ("INSERT (") ++ [39, 120, 39] ++ strBytes (");")

/-- The witness output: the literal span replaced by the Iban literal. -/
def c4output : List Nat :=
  strBytes ("INSERT (") ++ (39 :: strBytes ("AT01234567890123456789") ++ [39])
    ++ strBytes (");")

/-!
## Codec lemmas
-/

theorem hexDigit_bounds {d : Nat} (hd : d ≤ 15) :
    32 ≤ hexDigit d ∧ hexDigit d ≤ 126 := by
  unfold hexDigit
  split_ifs <;> omega

theorem scanQuoted_escaped (c : Nat) (l : List Nat) :
    scanQuoted 39 (92 :: c :: l) =
      (scanQuoted 39 l).map (fun p => (mysqlUnescape c :: p.1, p.2)) := by
  rw [scanQuoted]
  norm_num

theorem scanQuoted_lit {b : Nat} (hq : b ≠ 39) (hbs : b ≠ 92) (l : List Nat) :
    scanQuoted 39 (b :: l) =
      (scanQuoted 39 l).map (fun p => (b :: p.1, p.2)) := by
  rw [scanQuoted.eq_def]
  simp [hq, hbs]

/-- Scanning the escaped body of an encoded literal, followed by its closing
quote, recovers the original bytes exactly — provided they are printable
ASCII or tab/LF/CR. -/
theorem scan_encode (x : List Nat) (h : ∀ b ∈ x, mysqlSafe b) :
    scanQuoted 39 (x.flatMap escapeAsciiByte ++ [39]) = some (x, []) := by
  induction x with
  | nil => simp [scanQuoted]
  | cons b xs ih =>
    have hb : mysqlSafe b := h b (List.mem_cons_self _ _)
    have ih' := ih (fun c hc => h c (List.mem_cons_of_mem _ hc))
    have hflat : (b :: xs).flatMap escapeAsciiByte ++ [39]
        = escapeAsciiByte b ++ (xs.flatMap escapeAsciiByte ++ [39]) := by
      simp
    rw [hflat]
    rcases hb with hb | hb | hb | ⟨h1, h2⟩
    · subst hb
      have he : escapeAsciiByte 9 ++ (xs.flatMap escapeAsciiByte ++ [39])
          = 92 :: 116 :: (xs.flatMap escapeAsciiByte ++ [39]) := rfl
      rw [he, scanQuoted_escaped, ih']
      rfl
    · subst hb
      have he : escapeAsciiByte 10 ++ (xs.flatMap escapeAsciiByte ++ [39])
          = 92 :: 110 :: (xs.flatMap escapeAsciiByte ++ [39]) := rfl
      rw [he, scanQuoted_escaped, ih']
      rfl
    · subst hb
      have he : escapeAsciiByte 13 ++ (xs.flatMap escapeAsciiByte ++ [39])
          = 92 :: 114 :: (xs.flatMap escapeAsciiByte ++ [39]) := rfl
      rw [he, scanQuoted_escaped, ih']
      rfl
    · by_cases h92 : b = 92
      · subst h92
        have he : escapeAsciiByte 92 ++ (xs.flatMap escapeAsciiByte ++ [39])
            = 92 :: 92 :: (xs.flatMap escapeAsciiByte ++ [39]) := rfl
        rw [he, scanQuoted_escaped, ih']
        rfl
      · by_cases h39 : b = 39
        · subst h39
          have he : escapeAsciiByte 39 ++ (xs.flatMap escapeAsciiByte ++ [39])
              = 92 :: 39 :: (xs.flatMap escapeAsciiByte ++ [39]) := rfl
          rw [he, scanQuoted_escaped, ih']
          rfl
        · by_cases h34 : b = 34
          · subst h34
            have he : escapeAsciiByte 34 ++ (xs.flatMap escapeAsciiByte ++ [39])
                = 92 :: 34 :: (xs.flatMap escapeAsciiByte ++ [39]) := rfl
            rw [he, scanQuoted_escaped, ih']
            rfl
          · have he : escapeAsciiByte b = [b] := by
              unfold escapeAsciiByte
              rw [if_neg (by omega), if_neg (by omega), if_neg (by omega),
                  if_neg h92, if_neg h39, if_neg h34, if_pos ⟨h1, h2⟩]
            rw [he, List.singleton_append, scanQuoted_lit h39 h92, ih']
            rfl

/-- Round trip of the codec on the lossless byte set. -/
theorem mysql_roundtrip (x : List Nat) (h : ∀ b ∈ x, mysqlSafe b) :
    mysqlFromStr (mysqlEncode x) = some x := by
  have hscan := scan_encode x h
  simp [mysqlFromStr, mysqlEncode, skipWs, hscan]

/-- Every byte `escape_ascii` emits is printable ASCII. -/
theorem escapeAscii_printable {b : Nat} (hb : b < 256) :
    ∀ c ∈ escapeAsciiByte b, 32 ≤ c ∧ c ≤ 126 := by
  intro c hc
  unfold escapeAsciiByte at hc
  have hhi : b / 16 ≤ 15 := by omega
  have hlo : b % 16 ≤ 15 := Nat.le_of_lt_succ (Nat.lt_of_lt_of_le (Nat.mod_lt _ (by omega)) (by omega))
  split_ifs at hc with hi1 hi2 hi3 hi4 hi5 hi6 hi7
  · simp at hc; rcases hc with rfl | rfl <;> omega
  · simp at hc; rcases hc with rfl | rfl <;> omega
  · simp at hc; rcases hc with rfl | rfl <;> omega
  · simp at hc; subst hc; omega
  · simp at hc; rcases hc with rfl | rfl <;> omega
  · simp at hc; rcases hc with rfl | rfl <;> omega
  · simp at hc; rcases hc with rfl; omega
  · simp at hc
    rcases hc with rfl | rfl | rfl | rfl
    · omega
    · omega
    · exact hexDigit_bounds hhi
    · exact hexDigit_bounds hlo

/-- Every byte of an encoded literal is printable ASCII: bytes at or above
0x80 and control bytes appear only in escaped form. -/
theorem mysqlEncode_printable (x : List Nat) (h : ∀ b ∈ x, b < 256) :
    ∀ c ∈ mysqlEncode x, 32 ≤ c ∧ c ≤ 126 := by
  intro c hc
  simp only [mysqlEncode, List.mem_cons, List.mem_append, List.mem_flatMap,
    List.mem_singleton] at hc
  rcases hc with (rfl | ⟨b, hb, hcb⟩) | (rfl | h0)
  · omega
  · exact escapeAscii_printable (h b hb) c hcb
  · omega
  · simp at h0

/-- C1 (counterexample): the round-trip law fails on byte sequences outside
printable ASCII + tab/LF/CR.  The NUL byte is encoded `'\x00'` and the byte
0x80 as `'\x80'`, but the MySQL tokenizer has no `\xNN` escape — `\x` decodes
to the letter `x` — so decoding yields the three characters `x00` / `x80`
instead of the original byte. -/
theorem c1_counterexample :
    mysqlFromStr (mysqlEncode [0]) = some [120, 48, 48]
    ∧ mysqlFromStr (mysqlEncode [128]) = some [120, 56, 48]
    ∧ mysqlFromStr (mysqlEncode [0]) ≠ some [0]
    ∧ mysqlFromStr (mysqlEncode [128]) ≠ some [128] :=
  ⟨rfl, rfl, by decide, by decide⟩

/-- C1 (amended): decoding an encoded value reproduces the original bytes
exactly for sequences of printable ASCII and tab/LF/CR bytes (for other
bytes the `\xNN` escapes `encode` emits are not inverted by the MySQL
tokenizer); and in `encode(x)` every byte at or above 0x80 and every control
byte appears only in escaped form — the encoded text consists of printable
ASCII bytes only. -/
theorem c1_literal_roundtrip :
    (∀ x : List Nat, (∀ b ∈ x, mysqlSafe b) →
      mysqlFromStr (mysqlEncode x) = some x)
    ∧ (∀ x : List Nat, (∀ b ∈ x, b < 256) →
      ∀ c ∈ mysqlEncode x, 32 ≤ c ∧ c ≤ 126) :=
  ⟨mysql_roundtrip, mysqlEncode_printable⟩

/-- Witness for `c1_literal_roundtrip` at concrete inputs. -/
theorem c1_witness :
    ((∀ b ∈ [72, 9, 39, 92, 34, 126], mysqlSafe b)
      ∧ mysqlFromStr (mysqlEncode [72, 9, 39, 92, 34, 126])
          = some [72, 9, 39, 92, 34, 126])
    ∧ ((∀ b ∈ [0, 72, 200], b < 256)
      ∧ ∀ c ∈ mysqlEncode [0, 72, 200], 32 ≤ c ∧ c ≤ 126) :=
  ⟨⟨by decide, c1_literal_roundtrip.1 _ (by decide)⟩,
   ⟨by decide, c1_literal_roundtrip.2 _ (by decide)⟩⟩

/-- C5: with an empty (or otherwise non-matching) user query there are no
captures, and the run's output is byte-identical to the input. -/
theorem c5_identity (input : List Nat) (rng : Rng) :
    runMain input [] rng = Except.ok input := by
  simp [runMain, processCaptures]

/-- C6: a directive-bearing capture whose start offset lies strictly before
the driver's current stream position aborts the run at that point with the
`bail!` error (nonzero exit status), producing no further output. -/
theorem c6_out_of_order (input : List Nat) (c : Capture)
    (rest : List Capture) (p : Nat) (out : List Nat) (rng : Rng)
    (d : Directive) (hd : Directive.fromStr c.label = some d)
    (hp : c.startByte < p) :
    processCaptures input (c :: rest) p out rng
      = Except.error DriverErr.outOfOrder := by
  simp [processCaptures, hd, hp]

/-- Witness for `c6_out_of_order`: after a capture ending at offset 55, a
second directive-bearing capture starting at offset 30 kills the run. -/
theorem c6_witness :
    processCaptures (strBytes ("0123456789")) [⟨"iban", 30, 35⟩] 55 [] rng0
      = Except.error DriverErr.outOfOrder :=
  c6_out_of_order _ _ _ _ _ _ Directive.Iban (by decide) (by decide)

/-- C7: a capture whose label is not a directive name is silently skipped —
the run behaves exactly as if the capture were absent, and with no other
captures the matched span's bytes appear verbatim in the output. -/
theorem c7_unrecognized_label :
    (∀ (input : List Nat) (c : Capture) (rest : List Capture) (rng : Rng),
      Directive.fromStr c.label = none →
      runMain input (c :: rest) rng = runMain input rest rng)
    ∧ (∀ (input : List Nat) (c : Capture) (rng : Rng),
      Directive.fromStr c.label = none →
      runMain input [c] rng = Except.ok input) := by
  have hskip : ∀ (input : List Nat) (c : Capture) (rest : List Capture)
      (p : Nat) (out : List Nat) (rng : Rng),
      Directive.fromStr c.label = none →
      processCaptures input (c :: rest) p out rng
        = processCaptures input rest p out rng := by
    intro input c rest p out rng h
    rw [processCaptures, h]
  constructor
  · intro input c rest rng h
    unfold runMain
    rw [hskip _ _ _ _ _ _ h]
  · intro input c rng h
    unfold runMain
    rw [hskip _ _ _ _ _ _ h]
    simp [processCaptures]

/-- Witness for `c7_unrecognized_label` on the label `unknown_directive`. -/
theorem c7_witness :
    Directive.fromStr "unknown_directive" = none
    ∧ runMain (strBytes ("abcdef")) [⟨"unknown_directive", 2, 4⟩] rng0
        = Except.ok (strBytes ("abcdef")) :=
  ⟨by decide, c7_unrecognized_label.2 _ ⟨"unknown_directive", 2, 4⟩ _ (by decide)⟩

/-- C8: the Iban, VatNo and Password handlers write fixed literals that
depend neither on the matched span's content nor on the generator (which is
returned untouched), and skip the reader to the span's end. -/
theorem c8_fixed_literals (node : Capture) (input : List Nat) (p : Nat)
    (rng : Rng) :
    anonymize Directive.Iban node input p rng
      = Except.ok (39 :: strBytes ("AT01234567890123456789") ++ [39],
          node.endByte, rng)
    ∧ anonymize Directive.VatNo node input p rng
      = Except.ok (39 :: strBytes ("AT01234567") ++ [39], node.endByte, rng)
    ∧ anonymize Directive.Password node input p rng
      = Except.ok
          (39 ::
            strBytes
              ("$2y$10$xOGO.s9/T06bIuCydNED7up5JWlXWp/kK7C8DC76kWyYrB5s9rnAu")
            ++ [39],
           node.endByte, rng) :=
  ⟨rfl, rfl, rfl⟩

/-- C9: `Directive::from_str` accepts exactly the fourteen snake_case labels
and rejects every other string; in particular the CamelCase variant names
from the data model are all rejected. -/
theorem c9_directive_labels :
    directiveLabels.all (fun l => (Directive.fromStr l).isSome) = true
    ∧ (∀ s : String, s ∉ directiveLabels → Directive.fromStr s = none)
    ∧ camelLabels.all (fun s => (Directive.fromStr s).isNone) = true := by
  refine ⟨by decide, ?_, by decide⟩
  intro s hs
  simp only [directiveLabels, List.mem_cons, List.mem_singleton, not_or] at hs
  obtain ⟨n1, n2, n3, n4, n5, n6, n7, n8, n9, n10, n11, n12, n13, n14⟩ := hs
  unfold Directive.fromStr
  rw [if_neg n1, if_neg n2, if_neg n3, if_neg n4, if_neg n5, if_neg n6,
      if_neg n7, if_neg n8, if_neg n9, if_neg n10, if_neg n11, if_neg n12,
      if_neg n13, if_neg n14.1]

/-- Witness for `c9_directive_labels` on a string outside the label set. -/
theorem c9_witness :
    "u32x" ∉ directiveLabels ∧ Directive.fromStr "u32x" = none :=
  ⟨by decide, c9_directive_labels.2.1 _ (by decide)⟩

/-- C10: a span handled by the Order directive whose bytes are not valid
UTF-8 fails the run fatally at the `str::from_utf8` step — before any
literal decoding or JSON parsing — the handler writes no replacement bytes,
and the driver propagates the error (nonzero exit status). -/
theorem c10_order_utf8 (node : Capture) (input : List Nat) (p : Nat)
    (rng : Rng) (rest : List Capture) (out : List Nat)
    (hlabel : Directive.fromStr node.label = some Directive.Order)
    (hstart : node.startByte = p)
    (hlen : ((input.drop p).take (node.endByte - node.startByte)).length
      = node.endByte - node.startByte)
    (hutf : validUtf8 ((input.drop p).take (node.endByte - node.startByte))
      = false) :
    anonymize Directive.Order node input p rng
      = Except.error AnonErr.invalidUtf8
    ∧ processCaptures input (node :: rest) p out rng
      = Except.error (DriverErr.anon AnonErr.invalidUtf8) := by
  subst hstart
  have h1 : anonymize Directive.Order node input node.startByte rng
      = Except.error AnonErr.invalidUtf8 := by
    unfold anonymize
    rw [if_neg (by omega), if_pos hutf]
  refine ⟨h1, ?_⟩
  rw [processCaptures, hlabel]
  simp [h1]

/-- Witness for `c10_order_utf8`: a one-byte span holding the lone
continuation byte 0x80. -/
theorem c10_witness :
    anonymize Directive.Order ⟨"order", 0, 1⟩ [128] 0 rng0
      = Except.error AnonErr.invalidUtf8
    ∧ processCaptures [128] [⟨"order", 0, 1⟩] 0 [] rng0
      = Except.error (DriverErr.anon AnonErr.invalidUtf8) :=
  c10_order_utf8 ⟨"order", 0, 1⟩ [128] 0 rng0 [] [] (by decide) rfl
    (by decide) (by decide)

/-- C2 (counterexample): the BiologicalSex handler's coin flip is obtained
by `Faker.fake()`, which opens a fresh `thread_rng` handle instead of using
the `rng` parameter passed into `anonymize` — its one draw is logged against
the fresh handle, so not every random value is drawn from the parameter
handle. -/
theorem c2_counterexample :
    c2bioLog = [Handle.fresh] ∧ Handle.fresh ≠ Handle.param :=
  ⟨rfl, by decide⟩

/-- C2 (amended): all random values except the two `Faker.fake()` coin
flips are drawn through the parameter handle.  Every handler other than
BiologicalSex and Order logs only parameter draws; a successful Order
invocation logs exactly its seven draws — firstName, lastName and email
through the parameter handle, the gender coin through a fresh `thread_rng`
handle, then height, weight and birthDate through the parameter handle —
and BiologicalSex logs exactly its one fresh-handle coin flip.  Moreover
every handler consumes the single thread-local generator sequentially (the
stream is untouched and the position advances by exactly the number of new
logged draws), so for a fixed generator state the consumption order and the
output are deterministic. -/
theorem c2_rng_threading :
    (∀ (d : Directive) (node : Capture) (input : List Nat) (p : Nat)
      (rng : Rng) (res : List Nat × Nat × Rng),
      d ≠ Directive.BiologicalSex → d ≠ Directive.Order →
      anonymize d node input p rng = Except.ok res →
      ∃ k, res.2.2.log = rng.log ++ List.replicate k Handle.param)
    ∧ (∀ (node : Capture) (input : List Nat) (p : Nat) (rng : Rng)
      (res : List Nat × Nat × Rng),
      anonymize Directive.Order node input p rng = Except.ok res →
      res.2.2.log = rng.log
        ++ [Handle.param, Handle.param, Handle.param, Handle.fresh,
            Handle.param, Handle.param, Handle.param])
    ∧ (∀ (node : Capture) (input : List Nat) (p : Nat) (rng : Rng)
      (res : List Nat × Nat × Rng),
      anonymize Directive.BiologicalSex node input p rng = Except.ok res →
      res.2.2.log = rng.log ++ [Handle.fresh])
    ∧ (∀ (d : Directive) (node : Capture) (input : List Nat) (p : Nat)
      (rng : Rng) (res : List Nat × Nat × Rng),
      anonymize d node input p rng = Except.ok res →
      res.2.2.stream = rng.stream
      ∧ res.2.2.pos + rng.log.length = rng.pos + res.2.2.log.length) := by
  refine ⟨?_, ?_, ?_, ?_⟩
  · intro d node input p rng res hb ho heq
    cases d
    case BiologicalSex => exact absurd rfl hb
    case Order => exact absurd rfl ho
    case Address =>
      simp only [anonymize, fakerString, Rng.draw] at heq
      obtain rfl := Except.ok.inj heq
      exact ⟨6, by simp [List.replicate]⟩
    all_goals
      simp only [anonymize, fakerString, nextU32, Rng.draw] at heq
    all_goals obtain rfl := Except.ok.inj heq
    case Iban => exact ⟨0, by simp⟩
    case Password => exact ⟨0, by simp⟩
    case VatNo => exact ⟨0, by simp⟩
    all_goals exact ⟨1, by simp [List.replicate]⟩
  · intro node input p rng res heq
    rw [anonymize] at heq
    split at heq
    · exact Except.noConfusion heq
    · split at heq
      · exact Except.noConfusion heq
      · split at heq
        · exact Except.noConfusion heq
        · split at heq
          · exact Except.noConfusion heq
          · split at heq
            · split at heq
              · simp only [orderCustomer, fakerString, fakeBool, nextU32,
                  Rng.draw] at heq
                obtain rfl := Except.ok.inj heq
                simp
              · exact Except.noConfusion heq
            · exact Except.noConfusion heq
  · intro node input p rng res heq
    simp only [anonymize, fakeBool, Rng.draw] at heq
    obtain rfl := Except.ok.inj heq
    simp
  · intro d node input p rng res heq
    cases d
    case Order =>
      rw [anonymize] at heq
      split at heq
      · exact Except.noConfusion heq
      · split at heq
        · exact Except.noConfusion heq
        · split at heq
          · exact Except.noConfusion heq
          · split at heq
            · exact Except.noConfusion heq
            · split at heq
              · split at heq
                · simp only [orderCustomer, fakerString, fakeBool, nextU32,
                    Rng.draw] at heq
                  obtain rfl := Except.ok.inj heq
                  refine ⟨rfl, ?_⟩
                  simp
                  omega
                · exact Except.noConfusion heq
              · exact Except.noConfusion heq
    all_goals
      simp only [anonymize, fakerString, fakeBool, nextU32, Rng.draw] at heq
    all_goals obtain rfl := Except.ok.inj heq
    all_goals refine ⟨rfl, ?_⟩
    all_goals simp
    all_goals omega

/-- Witness for `c2_rng_threading` on concrete Email, Order and
BiologicalSex invocations. -/
theorem c2_witness :
    (∃ k, c2emailRes.2.2.log = rng0.log ++ List.replicate k Handle.param)
    ∧ c2orderRes.2.2.log = rng0.log
        ++ [Handle.param, Handle.param, Handle.param, Handle.fresh,
            Handle.param, Handle.param, Handle.param]
    ∧ c2bioRes.2.2.log = rng0.log ++ [Handle.fresh]
    ∧ (c2emailRes.2.2.stream = rng0.stream
      ∧ c2emailRes.2.2.pos + rng0.log.length
          = rng0.pos + c2emailRes.2.2.log.length) :=
  ⟨c2_rng_threading.1 Directive.Email ⟨"email", 0, 1⟩ [120] 0 rng0 c2emailRes
      (by decide) (by decide) rfl,
   c2_rng_threading.2.1 ⟨"order", 0, c2orderSpan.length⟩ c2orderSpan 0 rng0
      c2orderRes rfl,
   c2_rng_threading.2.2.1 ⟨"biological_sex", 0, 1⟩ [120] 0 rng0 c2bioRes rfl,
   c2_rng_threading.2.2.2 Directive.Email ⟨"email", 0, 1⟩ [120] 0 rng0
      c2emailRes rfl⟩

/-- Shape of the generated customer object: exactly the seven keys, gender
either `male` or `female`, height and weight non-negative integers. -/
theorem customer_shape (fn ln em : List Nat) (g : Bool) (hh ww : Nat)
    (bd : List Nat) :
    objKeys (customerValue fn ln em g hh ww bd) = customerKeys
    ∧ (objLookupV (customerValue fn ln em g hh ww bd) (strBytes ("gender"))
        = some (JsonValue.str (strBytes ("male")))
      ∨ objLookupV (customerValue fn ln em g hh ww bd) (strBytes ("gender"))
        = some (JsonValue.str (strBytes ("female"))))
    ∧ objLookupV (customerValue fn ln em g hh ww bd) (strBytes ("height"))
        = some (JsonValue.num (hh : Int))
    ∧ objLookupV (customerValue fn ln em g hh ww bd) (strBytes ("weight"))
        = some (JsonValue.num (ww : Int)) := by
  cases g
  · exact ⟨rfl, Or.inr rfl, rfl, rfl⟩
  · exact ⟨rfl, Or.inl rfl, rfl, rfl⟩

/-- C3 (amended): a span handled by the Order directive is consumed exactly
(the reader advances by the span length and only the span's bytes are read),
decoded as a literal string and parsed as JSON; the run fails fatally unless
the top-level value is an object containing the key `customerDetails` (of
any type — the code does not require the existing value to be an object);
on success `customerDetails` is replaced wholesale by a freshly generated
object with exactly the keys birthDate, email, firstName, gender, height,
lastName, weight (gender in male/female, height and weight non-negative
integers), every other top-level field is left unchanged, and the result is
re-serialized and re-encoded as a literal. -/
theorem c3_order_shape :
    (∀ (node : Capture) (input : List Nat) (p : Nat) (rng : Rng)
        (content : List Nat) (fields : List (List Nat × JsonValue)),
      ((input.drop p).take (node.endByte - node.startByte)).length
          = node.endByte - node.startByte →
      validUtf8 ((input.drop p).take (node.endByte - node.startByte))
          = true →
      mysqlFromStr ((input.drop p).take (node.endByte - node.startByte))
          = some content →
      jsonParse content = some (JsonValue.obj fields) →
      hasKey fields cdKey = true →
      ∃ (fn ln em : List Nat) (g : Bool) (hh ww : Nat) (bd : List Nat)
          (r' : Rng),
        anonymize Directive.Order node input p rng
          = Except.ok
              (mysqlEncode
                (jsonSerialize
                  (JsonValue.obj
                    (objReplace fields cdKey
                      (customerValue fn ln em g hh ww bd)))),
               p + (node.endByte - node.startByte), r')
        ∧ objKeys (customerValue fn ln em g hh ww bd) = customerKeys
        ∧ (objLookupV (customerValue fn ln em g hh ww bd)
             (strBytes ("gender")) = some (JsonValue.str (strBytes ("male")))
          ∨ objLookupV (customerValue fn ln em g hh ww bd)
             (strBytes ("gender"))
              = some (JsonValue.str (strBytes ("female"))))
        ∧ objLookupV (customerValue fn ln em g hh ww bd)
            (strBytes ("height")) = some (JsonValue.num (hh : Int))
        ∧ objLookupV (customerValue fn ln em g hh ww bd)
            (strBytes ("weight")) = some (JsonValue.num (ww : Int)))
    ∧ (∀ (node : Capture) (input : List Nat) (p : Nat) (rng : Rng)
        (content : List Nat) (fields : List (List Nat × JsonValue)),
      ((input.drop p).take (node.endByte - node.startByte)).length
          = node.endByte - node.startByte →
      validUtf8 ((input.drop p).take (node.endByte - node.startByte))
          = true →
      mysqlFromStr ((input.drop p).take (node.endByte - node.startByte))
          = some content →
      jsonParse content = some (JsonValue.obj fields) →
      hasKey fields cdKey = false →
      anonymize Directive.Order node input p rng
        = Except.error AnonErr.missingCustomerDetails)
    ∧ (∀ (node : Capture) (input : List Nat) (p : Nat) (rng : Rng)
        (content : List Nat) (v : JsonValue),
      ((input.drop p).take (node.endByte - node.startByte)).length
          = node.endByte - node.startByte →
      validUtf8 ((input.drop p).take (node.endByte - node.startByte))
          = true →
      mysqlFromStr ((input.drop p).take (node.endByte - node.startByte))
          = some content →
      jsonParse content = some v →
      isObjValue v = false →
      anonymize Directive.Order node input p rng
        = Except.error AnonErr.notObject) := by
  refine ⟨?_, ?_, ?_⟩
  · intro node input p rng content fields hlen hutf hdec hparse hkey
    unfold anonymize
    rw [if_neg (by omega), if_neg (by simp [hutf]), hdec]
    dsimp only
    rw [hparse]
    dsimp only
    rw [if_pos hkey]
    exact ⟨_, _, _, _, _, _, _, _, rfl, customer_shape _ _ _ _ _ _ _⟩
  · intro node input p rng content fields hlen hutf hdec hparse hkey
    unfold anonymize
    rw [if_neg (by omega), if_neg (by simp [hutf]), hdec]
    dsimp only
    rw [hparse]
    dsimp only
    rw [if_neg (by simp [hkey])]
  · intro node input p rng content v hlen hutf hdec hparse hnotobj
    unfold anonymize
    rw [if_neg (by omega), if_neg (by simp [hutf]), hdec]
    dsimp only
    rw [hparse]
    cases v
    case obj => simp [isObjValue] at hnotobj
    all_goals rfl

/-- C3 (counterexample): on a span decoding to JSON whose `customerDetails`
field is the number 5 — an object containing `customerDetails`, but with a
non-object value — the handler succeeds and rewrites the span instead of
failing fatally, contradicting the claim's requirement that
`customerDetails` be an object. -/
theorem c3_counterexample :
    mysqlFromStr c3cdNumSpan
      = some (jsonSerialize (JsonValue.obj c3cdNumFields))
    ∧ jsonParse (jsonSerialize (JsonValue.obj c3cdNumFields))
        = some (JsonValue.obj [(cdKey, JsonValue.num 5)])
    ∧ isObjValue (JsonValue.num 5) = false
    ∧ c3cdNumAccepted = true :=
  ⟨rfl, rfl, rfl, rfl⟩

/-- Witness for `c3_order_shape` on the span whose JSON is an object holding
`customerDetails` and one other field. -/
theorem c3_witness :
    ∃ (fn ln em : List Nat) (g : Bool) (hh ww : Nat) (bd : List Nat)
        (r' : Rng),
      anonymize Directive.Order ⟨"order", 0, c3wSpan.length⟩ c3wSpan 0 rng0
        = Except.ok
            (mysqlEncode
              (jsonSerialize
                (JsonValue.obj
                  (objReplace c3wFields cdKey
                    (customerValue fn ln em g hh ww bd)))),
             0 + (c3wSpan.length - 0), r')
      ∧ objKeys (customerValue fn ln em g hh ww bd) = customerKeys
      ∧ (objLookupV (customerValue fn ln em g hh ww bd)
           (strBytes ("gender")) = some (JsonValue.str (strBytes ("male")))
        ∨ objLookupV (customerValue fn ln em g hh ww bd)
           (strBytes ("gender"))
            = some (JsonValue.str (strBytes ("female"))))
      ∧ objLookupV (customerValue fn ln em g hh ww bd)
          (strBytes ("height")) = some (JsonValue.num (hh : Int))
      ∧ objLookupV (customerValue fn ln em g hh ww bd)
          (strBytes ("weight")) = some (JsonValue.num (ww : Int)) :=
  c3_order_shape.1 ⟨"order", 0, c3wSpan.length⟩ c3wSpan 0 rng0
    (jsonSerialize (JsonValue.obj c3wFields)) c3wFields rfl rfl rfl rfl rfl

theorem take_min_length (l : List Nat) (n : Nat) :
    l.take (min n l.length) = l.take n := by
  rcases Nat.le_total n l.length with h | h
  · rw [Nat.min_eq_left h]
  · rw [Nat.min_eq_right h, List.take_of_length_le h, List.take_length]

/-- The bytes the copy step emits are exactly the slice from the cursor to
the cursor-plus-copied-length. -/
theorem byteSlice_copied (input : List Nat) (p s : Nat) :
    byteSlice input p
        (p + (if p < s then (input.drop p).take (s - p) else []).length)
      = (if p < s then (input.drop p).take (s - p) else []) := by
  by_cases h : p < s
  · simp only [if_pos h, byteSlice, List.length_take, Nat.add_sub_cancel_left]
    exact take_min_length _ _
  · simp [if_neg h, byteSlice]

/-- On success every handler leaves the reader either at the node's end
(the seek of the non-consuming handlers) or advanced by exactly the span
length from where it started (the Order read). -/
theorem anonymize_pos {d : Directive} {c : Capture} {input : List Nat}
    {q : Nat} {rng : Rng} {seg : List Nat} {p2 : Nat} {rng2 : Rng}
    (h : anonymize d c input q rng = Except.ok (seg, p2, rng2)) :
    p2 = c.endByte ∨ p2 = q + (c.endByte - c.startByte) := by
  cases d
  case Order =>
    rw [anonymize] at h
    split at h
    · exact Except.noConfusion h
    · split at h
      · exact Except.noConfusion h
      · split at h
        · exact Except.noConfusion h
        · split at h
          · exact Except.noConfusion h
          · split at h
            · split at h
              · simp only [Except.ok.injEq, Prod.mk.injEq] at h
                exact Or.inr h.2.1.symm
              · exact Except.noConfusion h
            · exact Except.noConfusion h
  all_goals
    simp only [anonymize, fakerString, fakeBool, nextU32, Rng.draw,
      Except.ok.injEq, Prod.mk.injEq] at h
  all_goals exact Or.inl h.2.1.symm

/-- Main driver invariant: a successful pass over the captures decomposes
the emitted bytes into a monotone chain of verbatim slices and replacement
segments from the start cursor to the final cursor. -/
theorem processCaptures_chain (input : List Nat) (caps : List Capture) :
    ∀ (p : Nat) (acc out' : List Nat) (rng rng' : Rng) (p' : Nat),
    (∀ c ∈ caps, c.startByte ≤ c.endByte) →
    processCaptures input caps p acc rng = Except.ok (out', p', rng') →
    ∃ segs, SegChain p segs p' ∧ out' = acc ++ renderSegs input p segs := by
  induction caps with
  | nil =>
    intro p acc out' rng rng' p' hwf h
    rw [processCaptures] at h
    simp only [Except.ok.injEq, Prod.mk.injEq] at h
    obtain ⟨rfl, rfl, rfl⟩ := h
    exact ⟨[], SegChain.nil p, by simp [renderSegs]⟩
  | cons c rest ih =>
    intro p acc out' rng rng' p' hwf h
    rw [processCaptures] at h
    cases hd : Directive.fromStr c.label with
    | none =>
      rw [hd] at h
      exact ih p acc out' rng rng' p'
        (fun x hx => hwf x (List.mem_cons_of_mem _ hx)) h
    | some d =>
      rw [hd] at h
      dsimp only at h
      by_cases hlt : c.startByte < p
      · rw [if_pos hlt] at h
        exact Except.noConfusion h
      · rw [if_neg hlt] at h
        cases han : anonymize d c input
            (p + (if p < c.startByte then
              (input.drop p).take (c.startByte - p) else []).length) rng with
        | error e =>
          rw [han] at h
          exact Except.noConfusion h
        | ok t =>
          obtain ⟨seg, p2, rng2⟩ := t
          rw [han] at h
          dsimp only at h
          obtain ⟨segs', hchain, hout⟩ :=
            ih p2 (acc ++ (if p < c.startByte then
                (input.drop p).take (c.startByte - p) else []) ++ seg)
              out' rng2 rng' p'
              (fun x hx => hwf x (List.mem_cons_of_mem _ hx)) h
          set copied := if p < c.startByte then
            (input.drop p).take (c.startByte - p) else [] with hcopied
          have hp1s : p + copied.length ≤ c.startByte := by
            by_cases hps : p < c.startByte
            · have hle : copied.length ≤ c.startByte - p := by
                rw [hcopied, if_pos hps]
                exact List.length_take_le _ _
              omega
            · have hnil : copied = [] := by rw [hcopied, if_neg hps]
              rw [hnil]
              simp only [List.length_nil, Nat.add_zero]
              omega
          have hse : c.startByte ≤ c.endByte := hwf c (List.mem_cons_self _ _)
          have hp12 : p + copied.length ≤ p2 := by
            rcases anonymize_pos han with hp2 | hp2
            · omega
            · omega
          refine ⟨(p + copied.length, p2, seg) :: segs',
            SegChain.cons (Nat.le_add_right _ _) hp12 hchain, ?_⟩
          rw [hout, renderSegs, byteSlice_copied]
          simp [List.append_assoc]

/-- C4: on every successful run the emit cursor moves monotonically — the
output is an alternation of verbatim slices `[cursor, span start)` and
replacement segments for spans `[start, end)` along a non-decreasing chain
of offsets, followed by the verbatim tail: every input byte is emitted
verbatim exactly once or lies inside exactly one replaced span, with no
gaps and no overlaps.  (Span well-formedness `start ≤ end` is what
tree-sitter guarantees for every node.) -/
theorem c4_partition (input : List Nat) (caps : List Capture) (rng : Rng)
    (out : List Nat)
    (hwf : ∀ c ∈ caps, c.startByte ≤ c.endByte)
    (hrun : runMain input caps rng = Except.ok out) :
    ∃ segs q, SegChain 0 segs q
      ∧ out = renderSegs input 0 segs ++ input.drop q := by
  unfold runMain at hrun
  cases hpc : processCaptures input caps 0 [] rng with
  | error e =>
    rw [hpc] at hrun
    exact Except.noConfusion hrun
  | ok t =>
    obtain ⟨out1, q, rng'⟩ := t
    rw [hpc] at hrun
    simp only [Except.ok.injEq] at hrun
    obtain ⟨segs, hchain, hout⟩ :=
      processCaptures_chain input caps 0 [] out1 rng rng' q hwf hpc
    refine ⟨segs, q, hchain, ?_⟩
    rw [← hrun, hout]
    simp

/-- Witness for `c4_partition`: one Iban capture over the quoted literal. -/
theorem c4_witness :
    ∃ segs q, SegChain 0 segs q
      ∧ c4output = renderSegs c4input 0 segs ++ c4input.drop q :=
  c4_partition c4input [⟨"iban", 8, 11⟩] rng0 c4output (by decide) rfl
